import Mathlib

/-!
Shallow embedding of the ThreadPool repository (files QueueMutex.h,
ThreadPool.h, ThreadPool.cpp) and verification of its specification.

Machine integers: `uint32_t` values are modelled as `Nat` kept below
`2 ^ 32`, with wrapping arithmetic made explicit via `% 2 ^ 32`.
Fallible operations (`bool pop(T&)`) are modelled with `Option`;
C++ exceptions are modelled with `Except`.
-/

namespace TP

/-- The modulus of `uint32_t` arithmetic. -/
def UINT32_MOD : Nat := 2 ^ 32

/-- The constant `UINT32_MAX`. -/
def UINT32_MAX : Nat := UINT32_MOD - 1

/-- Wrapping unsigned 32-bit subtraction `a - b` on `uint32_t` operands
(both arguments are `uint32_t` values, hence below `2 ^ 32`). -/
def usub32 (a b : Nat) : Nat := (a + (UINT32_MOD - b % UINT32_MOD)) % UINT32_MOD

/-- QueueMutex.h, `struct PrioritizedTask`: a task function together with an
`int` priority and a `uint32_t` sequence number. -/
structure PrioritizedTask (T : Type) where
  function : T
  priority : Int
  sequence : Nat
  deriving Repr, DecidableEq

/-- QueueMutex.h lines 114-133, `PrioritizedTask::operator<`:
returns true when `this` task is ordered below `other` in the max-heap
(`std::priority_queue` pops its greatest element first).
Priorities are compared directly; for equal priorities the wrapping
difference `sequence - other.sequence` decides which comparison is used. -/
def ptLt {T : Type} (a other : PrioritizedTask T) : Bool :=
  if a.priority ≠ other.priority then
    a.priority < other.priority
  else
    let diff := usub32 a.sequence other.sequence
    if diff > 0x80000000 then
      a.sequence > other.sequence
    else
      a.sequence < other.sequence

/-- QueueMutex.h, `NormalQueue` (a mutex-protected `std::queue<T>`): the
contents are the list of elements, front first. -/
abbrev NormalQueue (T : Type) : Type := List T

/-- QueueMutex.h lines 48-55, `NormalQueue::push`: appends at the back and
returns true (always succeeds). -/
def NormalQueue.push {T : Type} (q : NormalQueue T) (value : T) : Bool × NormalQueue T :=
  (true, q ++ [value])

/-- QueueMutex.h lines 63-77, `NormalQueue::pop`: if the queue is empty,
returns false and leaves the queue unchanged; otherwise removes the front
element, writes it to `value` and returns true.  Modelled as
`(popped?, new contents)`. -/
def NormalQueue.pop {T : Type} (q : NormalQueue T) : Option T × NormalQueue T :=
  match q with
  | [] => (none, [])
  | x :: xs => (some x, xs)

/-- QueueMutex.h lines 85-91, `NormalQueue::empty`. -/
def NormalQueue.empty {T : Type} (q : NormalQueue T) : Bool := q.isEmpty

/-- Successive `NormalQueue::pop` calls until the queue reports empty:
the list of popped elements in order. -/
def NormalQueue.drain {T : Type} : NormalQueue T → List T
  | [] => []
  | x :: xs => x :: NormalQueue.drain xs

/-- QueueMutex.h lines 136-226, `PriorityQueue`: a mutex-protected
`std::priority_queue<PrioritizedTask<T>>` plus the atomic `uint32_t`
sequence counter `nextSequence`.  The heap's contents are modelled as the
multiset (list) of stored tasks; `top`/`pop` select a greatest element
under `ptLt`, which is the max-heap contract of `std::priority_queue`. -/
structure PriorityQueue (T : Type) where
  queue : List (PrioritizedTask T)
  nextSequence : Nat
  deriving Repr

/-- The freshly constructed `PriorityQueue`: empty heap, counter 0. -/
def PriorityQueue.init (T : Type) : PriorityQueue T := ⟨[], 0⟩

/-- QueueMutex.h lines 162-180, `PriorityQueue::push(value, priority)`:
builds a `PrioritizedTask` whose sequence is `nextSequence.fetch_add(1)`
(the old counter value, the increment wrapping at `2 ^ 32`), then stores 0
into the counter if the old value was `UINT32_MAX` (the counter has already
wrapped to 0 at that point), and inserts the task into the heap. -/
def PriorityQueue.pushP {T : Type} (q : PriorityQueue T) (value : T) (priority : Int) :
    PriorityQueue T :=
  let seq := q.nextSequence
  let incremented := (q.nextSequence + 1) % UINT32_MOD
  let next := if seq = UINT32_MAX then 0 else incremented
  { queue := q.queue ++ [{ function := value, priority := priority, sequence := seq }],
    nextSequence := next }

/-- QueueMutex.h lines 147-152, `PriorityQueue::push(value)`: default
priority 0. -/
def PriorityQueue.push {T : Type} (q : PriorityQueue T) (value : T) : PriorityQueue T :=
  q.pushP value 0

/-- Selection of `std::priority_queue::top()` from a nonempty heap holding
`x :: xs`, together with the remaining contents after `pop()`: a greatest
element under `ptLt` (the element not `ptLt`-below the running maximum is
kept, as in a max-heap) and the rest of the multiset. -/
def popMax {T : Type} (x : PrioritizedTask T) (xs : List (PrioritizedTask T)) :
    PrioritizedTask T × List (PrioritizedTask T) :=
  match xs with
  | [] => (x, [])
  | y :: ys =>
    let rec' := popMax y ys
    if ptLt x rec'.1 then (rec'.1, x :: rec'.2) else (x, y :: ys)

/-- QueueMutex.h lines 189-206, `PriorityQueue::pop`: if the heap is empty
returns false; otherwise takes the top task (greatest under `operator<`),
writes `task.function` into `value`, removes it and returns true.  The
popped `PrioritizedTask` is exposed for specification purposes. -/
def PriorityQueue.popTask {T : Type} (q : PriorityQueue T) :
    Option (PrioritizedTask T × PriorityQueue T) :=
  match q.queue with
  | [] => none
  | x :: xs =>
    let m := popMax x xs
    some (m.1, { q with queue := m.2 })

/-- QueueMutex.h lines 189-206, `PriorityQueue::pop`, as seen by the caller:
only `task.function` is returned. -/
def PriorityQueue.pop {T : Type} (q : PriorityQueue T) : Option (T × PriorityQueue T) :=
  match q.popTask with
  | none => none
  | some (t, q') => some (t.function, q')

/-- A sequence of `PriorityQueue::push(value, priority)` calls applied to a
queue, in list order. -/
def PriorityQueue.pushAll {T : Type} (q : PriorityQueue T) (l : List (T × Int)) :
    PriorityQueue T :=
  l.foldl (fun acc p => acc.pushP p.1 p.2) q

/-- Draining a `PriorityQueue` heap by successive `pop` calls: the popped
`PrioritizedTask`s in pop order. -/
def drainPQ {T : Type} : List (PrioritizedTask T) → List (PrioritizedTask T)
  | [] => []
  | x :: xs =>
    let m := popMax x xs
    m.1 :: drainPQ m.2
termination_by l => l.length
decreasing_by
  have hlen : ∀ (a : PrioritizedTask T) (l : List (PrioritizedTask T)),
      (popMax a l).2.length = l.length := by
    intro a l
    induction l generalizing a with
    | nil => simp [popMax]
    | cons y ys ih =>
      simp only [popMax]
      by_cases h : ptLt a (popMax y ys).1
      · simp [h, ih y]
      · simp [h]
  simp only [hlen, List.length_cons]
  omega

/-- Draining a `PriorityQueue` by successive `pop` calls, keeping the whole
popped `PrioritizedTask` of each call (pop order). -/
def PriorityQueue.drainTasks {T : Type} (q : PriorityQueue T) : List (PrioritizedTask T) :=
  drainPQ q.queue

/-! ThreadPool.h / ThreadPool.cpp: pool lifecycle model.

Tasks are opaque once queued; at pool level each queued task is an
identifier (`Nat`).  The model is sequential: `join`ing the workers is
modelled by its net effect on the pool state, and a ghost field
`executed` records every task a worker has run, so that "discarded
without being executed" is expressible. -/

/-- ThreadPool.h, `enum class TypePool`. -/
inductive TypePool where
  | Normal
  | Priority
  deriving Repr, DecidableEq

/-- ThreadPool.h, `struct SingThread`: the worker's thread handle plus its
private shared stop flag `isNotWorking`.  Only the flag carries state in
the model. -/
structure SingThread where
  isNotWorking : Bool
  deriving Repr, DecidableEq

instance : Inhabited SingThread := ⟨⟨false⟩⟩

/-- Observation on an `Except` result: whether the call raised. -/
def exceptRaised {ε α : Type} : Except ε α → Bool
  | Except.error _ => true
  | Except.ok _ => false

/-- ThreadPool.h, `class ThreadPool`: member variables `typePool`,
`threads`, `queue`, `isDone` (graceful-stop flag), `isStop`
(immediate-stop flag), plus the ghost execution log `executed`. -/
structure ThreadPool where
  typePool : TypePool
  threads : List SingThread
  queue : List Nat
  isDone : Bool
  isStop : Bool
  executed : List Nat
  deriving Repr, DecidableEq

namespace ThreadPool

/-- ThreadPool.h line 288, `isRunning`: `!isDone && !isStop`. -/
def isRunning (p : ThreadPool) : Bool := !p.isDone && !p.isStop

/-- ThreadPool.h line 303, `isStopped`: `isDone || isStop`. -/
def isStopped (p : ThreadPool) : Bool := p.isDone || p.isStop

/-- ThreadPool.h line 141, `size`: `threads.size()`. -/
def size (p : ThreadPool) : Nat := p.threads.length

/-- ThreadPool.cpp lines 132-140, `clearQueue`: pops every task still in
the queue and deletes it — no popped task is ever run, so the execution
log is untouched and the queue ends empty. -/
def clearQueue (p : ThreadPool) : ThreadPool := { p with queue := [] }

/-- ThreadPool.cpp lines 63-66 inside `stop(false)`: sets `isStop` and
marks every worker's private flag `isNotWorking`. -/
def setAllStopFlags (p : ThreadPool) : ThreadPool :=
  { p with
    isStop := true,
    threads := p.threads.map (fun t => { t with isNotWorking := true }) }

/-- Net effect of joining all workers during a graceful stop
(`stop(true)`, ThreadPool.cpp lines 86-89 with `isDone` set): each worker
drains the queue to empty, executing every queued task, then exits — if
the pool has at least one worker.  With no workers the join is a no-op
and the queue survives to the final `clearQueue`. -/
def joinGraceful (p : ThreadPool) : ThreadPool :=
  if p.threads.isEmpty then p
  else { p with executed := p.executed ++ p.queue, queue := [] }

/-- ThreadPool.cpp lines 55-95, `stop(isWait)`.
`isWait = false`: early-return if `isStop` is already set; otherwise set
`isStop`, set every worker's private flag, `clearQueue()` (drop all queued
tasks unexecuted), notify, join (workers exit: their flags are set and
the queue is empty, so nothing further runs), `clearQueue()` again and
clear the worker collection.
`isWait = true`: early-return if `isDone || isStop`; otherwise set
`isDone`, notify, join (workers drain the queue, executing everything),
`clearQueue()` and clear the worker collection. -/
def stop (p : ThreadPool) (isWait : Bool) : ThreadPool :=
  if !isWait then
    if p.isStop then p
    else
      let p1 := setAllStopFlags p
      let p2 := clearQueue p1
      let p3 := clearQueue p2
      { p3 with threads := [] }
  else
    if p.isDone || p.isStop then p
    else
      let p1 := { p with isDone := true }
      let p2 := joinGraceful p1
      let p3 := clearQueue p2
      { p3 with threads := [] }

/-- ThreadPool.cpp lines 97-130, `resize(numThreads)`: no-op unless
`!isStop && !isDone`.  Growing (`oldNumThread <= numThreads`): extend the
worker vector, each new slot getting a fresh flag set to false and a
started thread.  Shrinking: set the private flag of every worker past the
new count, detach its thread, notify, and truncate the vector.  The task
queue is not touched. -/
def resize (p : ThreadPool) (numThreads : Nat) : ThreadPool :=
  if !p.isStop && !p.isDone then
    let oldNumThread := p.threads.length
    if oldNumThread ≤ numThreads then
      { p with
        threads := p.threads ++ List.replicate (numThreads - oldNumThread) ⟨false⟩ }
    else
      { p with threads := p.threads.take numThreads }
  else p

/-- ThreadPool.h lines 207-235, `push`: wraps the task and enqueues it
unconditionally (no stop-flag check), then notifies one waiting worker. -/
def push (p : ThreadPool) (task : Nat) : ThreadPool :=
  { p with queue := p.queue ++ [task] }

/-- ThreadPool.cpp lines 240-254, `ThreadPool::pop`: removes one task from
the queue (front task of the underlying strategy) without running it. -/
def popOne (p : ThreadPool) : ThreadPool :=
  { p with queue := p.queue.drop 1 }

/-- ThreadPool.cpp lines 145-151, `getThread(i)`: throws
`std::out_of_range` when `i < 0 || i >= threads.size()`, otherwise returns
the `i`-th worker's thread.  The method mutates nothing, so it returns the
pool state unchanged alongside the result. -/
def getThread (p : ThreadPool) (i : Int) : Except String SingThread × ThreadPool :=
  if i < 0 ∨ (p.threads.length : Int) ≤ i then
    (Except.error "Thread index out of range", p)
  else
    (Except.ok (p.threads.getD i.toNat default), p)

/-- The public operations of the pool, for statements quantifying over
everything a caller can still do to a stopped pool. -/
inductive Op where
  | pushOp (task : Nat)
  | resizeOp (n : Nat)
  | stopOp (isWait : Bool)
  | clearQueueOp
  | popOp
  deriving Repr, DecidableEq

/-- Apply one public operation to the pool state. -/
def applyOp (p : ThreadPool) : Op → ThreadPool
  | Op.pushOp t => p.push t
  | Op.resizeOp n => p.resize n
  | Op.stopOp w => p.stop w
  | Op.clearQueueOp => p.clearQueue
  | Op.popOp => p.popOne

end ThreadPool

/-! Task execution and result delivery (ThreadPool.h `push` wrapping,
ThreadPool.cpp `setThread` worker loop).  A task body takes the worker's
id and either produces a value or raises a failure (`Except`). -/

/-- State of the `std::future` / shared state a submitter holds. -/
inductive HandleState (E A : Type) where
  | success (a : A)
  | failure (e : E)
  deriving Repr, DecidableEq

/-- ThreadPool.h lines 209-215: the pushed closure runs the
`std::packaged_task`, which stores the body's normal result — or the
exception the body raised — into the future's shared state.  The closure
itself completes normally either way. -/
def packagedTaskRun {E A : Type} (f : Int → Except E A) (id : Int) : HandleState E A :=
  match f id with
  | Except.ok a => HandleState.success a
  | Except.error e => HandleState.failure e

/-- ThreadPool.cpp lines 186-211: one iteration of the worker loop's inner
task-execution body: execute the dequeued closure under `try`/`catch`
(any escaping exception is caught and logged, never rethrown), then check
the private stop flag.  Result: the task's handle outcome, and whether the
worker loop keeps running (it exits only on the stop flag, never because
of a failure). -/
def workerExecuteTask {E A : Type} (f : Int → Except E A) (ind : Int) (flag : Bool) :
    HandleState E A × Bool :=
  (packagedTaskRun f ind, !flag)

/-- A worker with its stop flag clear processing a list of dequeued tasks
in order: the handle outcomes it deposits. -/
def workerRun {E A : Type} (ind : Int) (tasks : List (Int → Except E A)) :
    List (HandleState E A) :=
  tasks.map (fun f => (workerExecuteTask f ind false).1)

/-- A sequence of `NormalQueue::push` calls applied to a queue, in list
order. -/
def NormalQueue.pushAll {T : Type} (q : NormalQueue T) (l : List T) : NormalQueue T :=
  l.foldl (fun acc v => (NormalQueue.push acc v).2) q

/-! Concrete states used to evaluate the model at specific inputs. -/

/-- An equal-priority task submitted first (sequence number 0). -/
def oldTask : PrioritizedTask Nat := { function := 1, priority := 5, sequence := 0 }

/-- An equal-priority task submitted later, sequence number `2 ^ 31`
(wrapping distance from `oldTask` exactly half the counter range). -/
def newTask : PrioritizedTask Nat := { function := 2, priority := 5, sequence := 2 ^ 31 }

/-- An equal-priority task at sequence number `2 ^ 31 + 1` (wrapping
distance from `oldTask` beyond half the counter range). -/
def farTask : PrioritizedTask Nat := { function := 3, priority := 5, sequence := 2 ^ 31 + 1 }

/-- A `PriorityQueue` holding `oldTask` and `newTask`. -/
def wrapQueue : PriorityQueue Nat := { queue := [oldTask, newTask], nextSequence := 0 }

/-- A concrete running pool with two workers, two queued tasks and one
already-executed task. -/
def poolA : ThreadPool :=
  { typePool := TypePool.Normal, threads := [⟨false⟩, ⟨false⟩], queue := [7, 8],
    isDone := false, isStop := false, executed := [3] }

/-- A concrete running pool with one worker. -/
def poolB : ThreadPool :=
  { typePool := TypePool.Priority, threads := [⟨false⟩], queue := [1, 2],
    isDone := false, isStop := false, executed := [] }

/-- A concrete pool whose immediate-stop flag is set. -/
def poolStopped : ThreadPool :=
  { typePool := TypePool.Normal, threads := [⟨true⟩], queue := [4],
    isDone := false, isStop := true, executed := [] }

/-! Helper lemmas about the priority comparator and the heap model. -/

theorem ptLt_priority_le {T : Type} {a b : PrioritizedTask T} (h : ptLt a b = true) :
    a.priority ≤ b.priority := by
  unfold ptLt at h
  by_cases hp : a.priority = b.priority
  · exact le_of_eq hp
  · simp only [ne_eq, hp, not_false_eq_true, if_true, decide_eq_true_eq] at h
    exact le_of_lt h

theorem ptLt_false_priority_ge {T : Type} {a b : PrioritizedTask T} (h : ptLt a b = false) :
    b.priority ≤ a.priority := by
  unfold ptLt at h
  by_cases hp : a.priority = b.priority
  · exact le_of_eq hp.symm
  · simp only [ne_eq, hp, not_false_eq_true, if_true, decide_eq_false_iff_not, not_lt] at h
    exact h

theorem popMax_fst_mem {T : Type} (x : PrioritizedTask T) (xs : List (PrioritizedTask T)) :
    (popMax x xs).1 ∈ x :: xs := by
  induction xs generalizing x with
  | nil => simp [popMax]
  | cons y ys ih =>
    simp only [popMax]
    by_cases h : ptLt x (popMax y ys).1
    · simpa [h] using List.mem_cons_of_mem x (ih y)
    · simp [h]

theorem popMax_rest_subset {T : Type} (x : PrioritizedTask T)
    (xs : List (PrioritizedTask T)) :
    ∀ z ∈ (popMax x xs).2, z ∈ x :: xs := by
  induction xs generalizing x with
  | nil => simp [popMax]
  | cons y ys ih =>
    intro z hz
    simp only [popMax] at hz
    by_cases h : ptLt x (popMax y ys).1
    · simp only [h, if_true] at hz
      rcases List.mem_cons.mp hz with hz | hz
      · exact hz ▸ List.mem_cons_self x _
      · exact List.mem_cons_of_mem x (ih y z hz)
    · simp only [h, if_false] at hz
      exact List.mem_cons_of_mem x hz

theorem popMax_fst_priority_ge {T : Type} (x : PrioritizedTask T)
    (xs : List (PrioritizedTask T)) :
    ∀ z ∈ x :: xs, z.priority ≤ (popMax x xs).1.priority := by
  induction xs generalizing x with
  | nil =>
    intro z hz
    simp only [List.mem_singleton] at hz
    simp [popMax, hz]
  | cons y ys ih =>
    intro z hz
    simp only [popMax]
    by_cases h : ptLt x (popMax y ys).1
    · simp only [h, if_true]
      rcases List.mem_cons.mp hz with hz | hz
      · exact hz ▸ ptLt_priority_le h
      · exact ih y z hz
    · simp only [h, if_false]
      rcases List.mem_cons.mp hz with hz | hz
      · exact le_of_eq (congrArg PrioritizedTask.priority hz)
      · exact le_trans (ih y z hz) (ptLt_false_priority_ge (Bool.of_not_eq_true h))

theorem drainPQ_subset {T : Type} (l : List (PrioritizedTask T)) :
    ∀ z ∈ drainPQ l, z ∈ l := by
  induction l using drainPQ.induct with
  | case1 => simp [drainPQ]
  | case2 x xs m ih =>
    intro z hz
    rw [drainPQ] at hz
    rcases List.mem_cons.mp hz with hz | hz
    · exact hz ▸ popMax_fst_mem x xs
    · exact popMax_rest_subset x xs z (ih z hz)

theorem drainPQ_pairwise {T : Type} (l : List (PrioritizedTask T)) :
    List.Pairwise (fun a b => b.priority ≤ a.priority) (drainPQ l) := by
  induction l using drainPQ.induct with
  | case1 => simp [drainPQ]
  | case2 x xs m ih =>
    rw [drainPQ]
    refine List.Pairwise.cons ?_ ih
    intro z hz
    have hz' : z ∈ (popMax x xs).2 := drainPQ_subset _ z hz
    exact popMax_fst_priority_ge x xs z (popMax_rest_subset x xs z hz')

/-! Helper lemmas for the sequence counter. -/

theorem pushP_sequence_invariant {T : Type} (q : PriorityQueue T) (v : T) (pri : Int)
    (n : Nat) (h1 : q.nextSequence = n % UINT32_MOD)
    (h2 : q.queue.map (fun t => t.sequence) = (List.range n).map (fun k => k % UINT32_MOD)) :
    (q.pushP v pri).nextSequence = (n + 1) % UINT32_MOD ∧
    (q.pushP v pri).queue.map (fun t => t.sequence)
      = (List.range (n + 1)).map (fun k => k % UINT32_MOD) := by
  have hM : 1 < UINT32_MOD := by norm_num [UINT32_MOD]
  have hone : (1 : Nat) % UINT32_MOD = 1 := Nat.mod_eq_of_lt hM
  have key : (n + 1) % UINT32_MOD = (n % UINT32_MOD + 1) % UINT32_MOD := by
    conv_lhs => rw [Nat.add_mod]
    rw [hone]
  constructor
  · simp only [PriorityQueue.pushP, h1]
    by_cases hc : n % UINT32_MOD = UINT32_MAX
    · simp only [hc, if_true, key]
      norm_num [UINT32_MAX, UINT32_MOD]
    · simp only [hc, if_false, key]
  · simp only [PriorityQueue.pushP, List.map_append, h2, h1, List.range_succ,
      List.map_cons, List.map_nil]

theorem pushAll_sequence_invariant {T : Type} (l : List (T × Int)) (q : PriorityQueue T)
    (n : Nat) (h1 : q.nextSequence = n % UINT32_MOD)
    (h2 : q.queue.map (fun t => t.sequence) = (List.range n).map (fun k => k % UINT32_MOD)) :
    (q.pushAll l).nextSequence = (n + l.length) % UINT32_MOD ∧
    (q.pushAll l).queue.map (fun t => t.sequence)
      = (List.range (n + l.length)).map (fun k => k % UINT32_MOD) := by
  induction l generalizing q n with
  | nil => simpa [PriorityQueue.pushAll] using ⟨h1, h2⟩
  | cons p ps ih =>
    have step := pushP_sequence_invariant q p.1 p.2 n h1 h2
    have := ih (q.pushP p.1 p.2) (n + 1) step.1 step.2
    simpa [PriorityQueue.pushAll, Nat.add_assoc, Nat.add_comm 1 ps.length] using this

/-- Unfolding of `drainTasks` through `popTask`: draining pops the top task
and continues on the remaining queue. -/
theorem drainTasks_eq_popTask {T : Type} (q : PriorityQueue T) :
    q.drainTasks = match q.popTask with
      | none => []
      | some (t, q') => t :: q'.drainTasks := by
  cases hq : q.queue with
  | nil => simp [PriorityQueue.drainTasks, PriorityQueue.popTask, hq, drainPQ]
  | cons x xs =>
    simp only [PriorityQueue.drainTasks, PriorityQueue.popTask, hq]
    rw [drainPQ]

/-- Pairwise form of priority ordering for a drained `PriorityQueue`. -/
theorem drainTasks_pairwise {T : Type} (q : PriorityQueue T) :
    List.Pairwise (fun a b => b.priority ≤ a.priority) q.drainTasks :=
  drainPQ_pairwise q.queue

/-! Helper lemmas for the FIFO queue. -/

theorem NormalQueue.pushAll_eq_append {T : Type} (l : List T) (q : NormalQueue T) :
    NormalQueue.pushAll q l = q ++ l := by
  induction l generalizing q with
  | nil => simp [NormalQueue.pushAll]
  | cons x xs ih =>
    simp [NormalQueue.pushAll, NormalQueue.push] at ih ⊢
    rw [ih (q ++ [x])]
    simp

theorem NormalQueue.drain_eq_self {T : Type} (q : NormalQueue T) :
    NormalQueue.drain q = q := by
  induction q with
  | nil => rfl
  | cons x xs ih => simp [NormalQueue.drain, ih]

/-! Helper lemmas for `stop`. -/

theorem ThreadPool.stop_true_of_stopped (p : ThreadPool)
    (h : (p.isDone || p.isStop) = true) : p.stop true = p := by
  simp [ThreadPool.stop, h]

theorem ThreadPool.stop_true_stopped (p : ThreadPool) :
    ((p.stop true).isDone || (p.stop true).isStop) = true := by
  by_cases h : (p.isDone || p.isStop) = true
  · rw [ThreadPool.stop_true_of_stopped p h]
    exact h
  · simp only [ThreadPool.stop, Bool.not_true, Bool.false_eq_true, if_false, h,
      ThreadPool.joinGraceful, ThreadPool.clearQueue]
    by_cases ht : p.threads.isEmpty <;> simp [ht]

/-- Full description of `stop(false)` on a pool whose immediate-stop flag
is clear. -/
theorem ThreadPool.stop_false_eq (p : ThreadPool) (h : p.isStop = false) :
    p.stop false =
      { typePool := p.typePool, threads := [], queue := [], isDone := p.isDone,
        isStop := true, executed := p.executed } := by
  simp [ThreadPool.stop, h, ThreadPool.setAllStopFlags, ThreadPool.clearQueue]

/-! The claims. -/

/-- C1: the claim states that under the Priority strategy two queued tasks
of equal priority pop in submission order — smaller sequence number first
when the wrapping difference has magnitude at most half the 32-bit range.
The code violates this: `std::priority_queue` pops its GREATEST element
under `operator<`, and for equal priorities the comparator makes the
smaller sequence number compare LESS (`sequence < other.sequence`), so the
newer task pops first.  Concretely, for equal-priority tasks with sequence
numbers 0 (older) and `2 ^ 31`, both wrapping differences have magnitude
at most half the range, the claim demands the sequence-0 task first, yet
the sequence-0 task is strictly below the other, and `pop` returns the
sequence-`2 ^ 31` task's function first.  Moreover for sequence distances
beyond half the range the comparator is not even asymmetric
(`oldTask < farTask` and `farTask < oldTask` simultaneously), violating
the strict-weak-ordering precondition of `std::priority_queue`. -/
theorem C1_equal_priority_fifo_violated :
    usub32 newTask.sequence oldTask.sequence ≤ 2 ^ 31
    ∧ usub32 oldTask.sequence newTask.sequence ≤ 2 ^ 31
    ∧ oldTask.priority = newTask.priority
    ∧ oldTask.sequence < newTask.sequence
    ∧ ptLt oldTask newTask = true
    ∧ ptLt newTask oldTask = false
    ∧ (PriorityQueue.pop wrapQueue).map Prod.fst = some newTask.function
    ∧ ptLt oldTask farTask = true
    ∧ ptLt farTask oldTask = true := by
  decide

/-- C2: for every sequence of `push(task, priority)` calls followed by pops
draining the queue, the priorities of the popped tasks are non-increasing:
no task pops before a queued task of strictly higher priority. -/
theorem C2_drain_priorities_nonincreasing (l : List (Nat × Int)) :
    List.Pairwise (fun a b => b.priority ≤ a.priority)
      (((PriorityQueue.init Nat).pushAll l).drainTasks) :=
  drainTasks_pairwise _

/-- C3: under the FIFO (Normal) strategy, draining the queue after any
sequence of pushes returns the tasks in exactly the order pushed, and
`pop` on an empty queue reports no element and leaves the queue
unchanged. -/
theorem C3_fifo_exact_order {T : Type} (l : List T) :
    NormalQueue.drain (NormalQueue.pushAll ([] : NormalQueue T) l) = l
    ∧ NormalQueue.pop ([] : NormalQueue T) = (none, ([] : NormalQueue T)) := by
  constructor
  · rw [NormalQueue.pushAll_eq_append, List.nil_append, NormalQueue.drain_eq_self]
  · rfl

/-- C4: a task whose body raises a failure has that failure captured, not
propagated: its handle ends in the failed state, the worker loop keeps
running, and every other task in the worker's stream is processed exactly
as it would be on its own. -/
theorem C4_task_failure_captured {E A : Type} (ts1 ts2 : List (Int → Except E A))
    (f : Int → Except E A) (e : E) (ind : Int) (h : f ind = Except.error e) :
    workerRun ind (ts1 ++ f :: ts2)
      = workerRun ind ts1 ++ HandleState.failure e :: workerRun ind ts2
    ∧ (workerExecuteTask f ind false).2 = true := by
  refine ⟨?_, rfl⟩
  simp [workerRun, workerExecuteTask, packagedTaskRun, h]

/-- Witness for C4 at a concrete failing task. -/
theorem C4_witness :
    workerRun 0 ([] ++ (fun _ => (Except.error "boom" : Except String Nat)) :: [])
      = [] ++ HandleState.failure "boom" :: []
    ∧ (workerExecuteTask (fun _ => (Except.error "boom" : Except String Nat)) 0 false).2
      = true :=
  C4_task_failure_captured [] [] (fun _ => (Except.error "boom" : Except String Nat))
    "boom" 0 rfl

/-- C5: after `stop(graceful = false)` on a pool not already immediately
stopped: the immediate-stop flag is set, every worker's private stop flag
was set, every still-queued task is discarded without being executed, the
queue and the worker collection end empty, the pool reports not running,
and no subsequent operation clears the immediate-stop flag (the pool
cannot be restarted). -/
theorem C5_stop_immediate (p : ThreadPool) (op : ThreadPool.Op)
    (h : p.isStop = false) :
    (p.stop false).isStop = true
    ∧ (p.setAllStopFlags).threads.all (fun t => t.isNotWorking) = true
    ∧ (p.stop false).queue = []
    ∧ (p.stop false).executed = p.executed
    ∧ (p.stop false).threads = []
    ∧ (p.stop false).isRunning = false
    ∧ ((p.stop false).applyOp op).isStop = true := by
  rw [ThreadPool.stop_false_eq p h]
  refine ⟨rfl, ?_, rfl, rfl, rfl, by simp [ThreadPool.isRunning], ?_⟩
  · simp [ThreadPool.setAllStopFlags, List.all_eq_true]
  · cases op <;>
      simp [ThreadPool.applyOp, ThreadPool.push, ThreadPool.resize, ThreadPool.popOne,
        ThreadPool.clearQueue, ThreadPool.stop]

/-- Witness for C5 at a concrete pool and operation. -/
theorem C5_witness :
    poolA.isStop = false
    ∧ ((poolA.stop false).isStop = true
        ∧ (poolA.setAllStopFlags).threads.all (fun t => t.isNotWorking) = true
        ∧ (poolA.stop false).queue = []
        ∧ (poolA.stop false).executed = poolA.executed
        ∧ (poolA.stop false).threads = []
        ∧ (poolA.stop false).isRunning = false
        ∧ ((poolA.stop false).applyOp (ThreadPool.Op.resizeOp 5)).isStop = true) :=
  ⟨rfl, C5_stop_immediate poolA (ThreadPool.Op.resizeOp 5) rfl⟩

/-- C6: `stop(graceful = true)` is idempotent — on any pool state, a second
graceful stop is a no-op and the resulting state equals that of a single
call. -/
theorem C6_stop_graceful_idempotent (p : ThreadPool) :
    (p.stop true).stop true = p.stop true :=
  ThreadPool.stop_true_of_stopped _ (ThreadPool.stop_true_stopped p)

/-- C7: on a running pool (neither stop flag set) `resize(n)` leaves
`size() = n` and the task queue untouched; on a pool with either stop flag
set, `resize(n)` leaves the whole state unchanged. -/
theorem C7_resize_invariant (p : ThreadPool) (n : Nat) :
    (p.isStop = false → p.isDone = false →
      (p.resize n).size = n ∧ (p.resize n).queue = p.queue)
    ∧ ((p.isStop = true ∨ p.isDone = true) → p.resize n = p) := by
  constructor
  · intro hs hd
    unfold ThreadPool.resize
    simp only [hs, hd, Bool.not_false, Bool.and_self, if_true]
    by_cases hle : p.threads.length ≤ n
    · rw [if_pos hle]
      refine ⟨?_, rfl⟩
      simp only [ThreadPool.size, List.length_append, List.length_replicate]
      omega
    · rw [if_neg hle]
      refine ⟨?_, rfl⟩
      simp only [ThreadPool.size, List.length_take]
      omega
  · intro h
    unfold ThreadPool.resize
    rcases h with h | h <;> simp [h]

/-- Witness for C7 at a concrete running pool and a concrete stopped
pool. -/
theorem C7_witness :
    (poolB.isStop = false ∧ poolB.isDone = false
      ∧ (poolB.resize 3).size = 3 ∧ (poolB.resize 3).queue = poolB.queue)
    ∧ (poolStopped.isStop = true ∧ poolStopped.resize 3 = poolStopped) :=
  ⟨⟨rfl, rfl, (C7_resize_invariant poolB 3).1 rfl rfl⟩,
   rfl, (C7_resize_invariant poolStopped 3).2 (Or.inl rfl)⟩

/-- C8: `getThread(i)` reports a range error exactly when
`i < 0 ∨ i ≥ size()`, never mutates the pool, and for an in-range index
returns the `i`-th worker's thread. -/
theorem C8_getThread_range (p : ThreadPool) (i : Int) :
    (exceptRaised (p.getThread i).1 = true ↔ (i < 0 ∨ (p.threads.length : Int) ≤ i))
    ∧ (p.getThread i).2 = p
    ∧ (0 ≤ i → i < (p.threads.length : Int) →
        (p.getThread i).1 = Except.ok (p.threads.getD i.toNat default)
        ∧ p.threads[i.toNat]? = some (p.threads.getD i.toNat default)) := by
  by_cases hc : i < 0 ∨ (p.threads.length : Int) ≤ i
  · refine ⟨?_, ?_, ?_⟩
    · simp [ThreadPool.getThread, hc, exceptRaised]
    · simp [ThreadPool.getThread, hc]
    · intro h0 hlt
      exact absurd hc (by omega)
  · refine ⟨?_, ?_, ?_⟩
    · simp [ThreadPool.getThread, hc, exceptRaised]
    · simp [ThreadPool.getThread, hc]
    · intro h0 hlt
      have hn : i.toNat < p.threads.length := by omega
      refine ⟨by simp [ThreadPool.getThread, hc], ?_⟩
      rw [List.getElem?_eq_getElem hn, List.getD_eq_getElem p.threads default hn]

/-- Witness for C8: out-of-range and in-range accesses on a concrete
pool. -/
theorem C8_witness :
    (exceptRaised (poolA.getThread 5).1 = true ↔ ((5 : Int) < 0 ∨ (poolA.threads.length : Int) ≤ 5))
    ∧ (0 : Int) ≤ 0 ∧ (0 : Int) < (poolA.threads.length : Int)
    ∧ (poolA.getThread 0).1 = Except.ok (poolA.threads.getD (0 : Int).toNat default)
    ∧ (poolA.getThread 0).2 = poolA :=
  ⟨(C8_getThread_range poolA 5).1, by decide, by decide,
   ((C8_getThread_range poolA 0).2.2 (by decide) (by decide)).1,
   (C8_getThread_range poolA 0).2.1⟩

/-- C9: the sequence counter assigns consecutive wrapping 32-bit sequence
numbers: after any sequence of pushes starting from a fresh queue, the
`k`-th push (counting from 0) received sequence number `k mod 2 ^ 32`, and
the counter holds the number of pushes modulo `2 ^ 32` — it wraps from
`2 ^ 32 - 1` back to 0 instead of growing. -/
theorem C9_sequence_numbers (l : List (Nat × Int)) :
    ((PriorityQueue.init Nat).pushAll l).queue.map (fun t => t.sequence)
      = (List.range l.length).map (fun k => k % UINT32_MOD)
    ∧ ((PriorityQueue.init Nat).pushAll l).nextSequence = l.length % UINT32_MOD := by
  have h := pushAll_sequence_invariant l (PriorityQueue.init Nat) 0 (by rfl) (by rfl)
  exact ⟨by simpa using h.2, by simpa using h.1⟩

/-- C10: `isStopped()` is the exact negation of `isRunning()` in every pool
state. -/
theorem C10_isStopped_iff_not_isRunning (p : ThreadPool) :
    p.isStopped = !p.isRunning := by
  simp [ThreadPool.isStopped, ThreadPool.isRunning]

end TP
